import Mathlib

/-!
Verification development for the cblt media bot.

The Python sources (`bot.py`, `media_fetcher.py`, `models.py`) are shallowly
embedded below: insertion-ordered dicts become association lists keyed by
`String`, the cooperative asyncio scheduling of the two racing dispatch
triggers becomes an explicit interleaving model, and fallible code returns
`Except`.  All definitions are translated directly from the source; theorems
about the claims of the specification follow at the end of the file.
-/

namespace Cblt

/-! ## Association-list model of Python dicts (insertion ordered) -/

/-- Lookup in an insertion-ordered dict, `m[k]` / `k in m`. -/
def dictGet {α : Type} : List (String × α) → String → Option α
  | [], _ => none
  | (k, v) :: rest, key => if k = key then some v else dictGet rest key

/-- `del m[k]` (keys are unique in a dict, so deleting every binding of `k`
coincides with deleting the one binding). -/
def dictDel {α : Type} : List (String × α) → String → List (String × α)
  | [], _ => []
  | (k, v) :: rest, key =>
    if k = key then dictDel rest key else (k, v) :: dictDel rest key

/-- `m[k] = v`: replace the binding in place if the key exists, otherwise
append it at the end (Python dicts preserve insertion order). -/
def dictSet {α : Type} : List (String × α) → String → α → List (String × α)
  | [], key, v => [(key, v)]
  | (k, w) :: rest, key, v =>
    if k = key then (key, v) :: rest else (k, w) :: dictSet rest key v

/-! ## `models.py`: data model -/

/-- `models.InlineQueryInfo`. -/
structure InlineQueryInfo where
  query : String
  inline : Bool
  time_ns : Nat
  from_user_id : Nat
  deriving DecidableEq

/-- The `type` literal of a picker item (`"gif" | "video" | "photo"`). -/
inductive PickType where
  | gif | video | photo
  deriving DecidableEq

/-- `models.PickerItem`. -/
structure PickerItem where
  type : PickType
  url : String
  thumb : Option String := none
  deriving DecidableEq

/-- The `status` literal of `models.MediaResponse`. -/
inductive MStatus where
  | error | tunnel | picker | redirect
  deriving DecidableEq

/-- The `type` literal of `models.MediaResponse`. -/
inductive MType where
  | gif | video | photo | audio | file
  deriving DecidableEq

/-- The structured error dict carried by an error response:
`response.error` with a `code` and an optional `context` mapping. -/
structure ErrInfo where
  code : String
  context : List (String × String) := []
  deriving DecidableEq

/-- `models.MediaResponse` (the post-validation pydantic model). -/
structure MediaResponse where
  status : MStatus := .error
  picker : Option (List PickerItem) := none
  url : Option String := none
  filename : Option String := none
  audio : Option String := none
  audioFilename : Option String := none
  error : Option ErrInfo := none
  type : MType := .file
  deriving DecidableEq

/-- The aiogram `InputMedia*` objects produced by `parse_media_response`;
each carries the source locator (and thumbnail / filename where the code
supplies one). -/
inductive InputMedia where
  | photo (media : String) (thumbnail : Option String)
  | video (media : String) (thumbnail : Option String)
  | animation (media : String) (thumbnail : Option String)
  | audio (media : String) (filename : String)
  | document (media : String)
  deriving DecidableEq

/-- `models.ParsedMediaResponse`. -/
structure ParsedMediaResponse where
  media_items : List InputMedia := []
  success : Bool := true
  error_message : Option String := none
  error_count : Nat := 0
  total_count : Nat := 0
  deriving DecidableEq

/-- `ParsedMediaResponse.success_count`: number of successfully processed
items (`len(self.media_items)`). -/
def ParsedMediaResponse.success_count (r : ParsedMediaResponse) : Nat :=
  r.media_items.length

/-- `ParsedMediaResponse.has_errors`. -/
def ParsedMediaResponse.has_errors (r : ParsedMediaResponse) : Bool :=
  r.error_count > 0

/-- `ParsedMediaResponse.all_failed`. -/
def ParsedMediaResponse.all_failed (r : ParsedMediaResponse) : Bool :=
  r.total_count > 0 && r.success_count = 0

/-! ## `media_fetcher.py`: response parsing -/

/-- Python truthiness of an optional string (`None` and `""` are falsy). -/
def truthyStr : Option String → Bool
  | none => false
  | some s => !(s == "")

/-- `x or d` for an optional string field. -/
def orElseStr (o : Option String) (d : String) : String :=
  match o with
  | some s => if s = "" then d else s
  | none => d

/-- `media_fetcher.fix_url`: the rewriting experiment is commented out in the
source; the function returns the URL unchanged (`URL(url, encoded=True)`). -/
def fix_url (url : String) : String := url

/-- Formatting of a structured upstream error in `parse_media_response`:
the code, then optionally a context line. -/
def formatError (e : ErrInfo) : String :=
  if e.context.isEmpty then e.code
  else
    e.code ++ "\nContext: " ++
      String.intercalate ", " (e.context.map (fun kv => kv.1 ++ ": " ++ kv.2))

/-- `str(response.error)` when the error field is not a dict: the only
non-dict value the model admits is `None`. -/
def strOfError : Option ErrInfo → String
  | some e => formatError e
  | none => "None"

/-- One iteration of the picker loop of `parse_media_response`: probe result
for the item URL comes from `oracle`; items whose URL probe fails increment
`error_count` and are skipped, others are appended as typed media with a
thumbnail when the thumb URL is truthy and its probe succeeded. -/
def processPickerItem (oracle : String → Bool) (acc : ParsedMediaResponse)
    (item : PickerItem) : ParsedMediaResponse :=
  let urlOk := oracle item.url
  let thumbOk :=
    match item.thumb with
    | some t => if t = "" then false else oracle t
    | none => false
  if urlOk = false then
    { acc with error_count := acc.error_count + 1 }
  else
    let thumbnail : Option String :=
      match item.thumb with
      | some t => if t ≠ "" && thumbOk then some (fix_url t) else none
      | none => none
    let media : InputMedia :=
      match item.type with
      | .photo => .photo (fix_url item.url) thumbnail
      | .video => .video (fix_url item.url) thumbnail
      | .gif => .animation (fix_url item.url) thumbnail
    { acc with media_items := acc.media_items ++ [media] }

/-- `media_fetcher.parse_media_response`.  `oracle url` stands for the result
of `check_url_has_content(url)` during this call (the per-item probes of a
picker are joined before classification, so a single valuation describes
them).  The translation preserves the exact branch structure of the source,
including the early `return` in the audio branch that sits outside the
probe-failure conditional. -/
def parse_media_response (oracle : String → Bool) (response : MediaResponse) :
    ParsedMediaResponse :=
  if response.status = .error then
    { success := false, error_message := some (strOfError response.error) }
  else if response.status = .picker && !(response.picker.getD []).isEmpty then
    let items := (response.picker).getD []
    let base : ParsedMediaResponse := { total_count := items.length }
    let r := items.foldl (processPickerItem oracle) base
    { r with
      success := decide (0 < r.media_items.length),
      error_message :=
        if r.media_items.isEmpty then some "Failed to process all media items"
        else r.error_message }
  else if response.status = .tunnel ∨ response.status = .redirect then
    if truthyStr response.audio then
      let a := response.audio.getD ""
      if response.status ≠ .tunnel then
        -- BUG in source: `error_message` assignment and `return` are outside
        -- the `if not await check_url_has_content(...)` block, so a passing
        -- probe still returns early with no media and success left True.
        if oracle a = false then
          { total_count := 1, error_count := 1, success := false,
            error_message := some "Failed to download, audio appears to be empty" }
        else
          { total_count := 1, error_count := 0, success := true,
            error_message := some "Failed to download, audio appears to be empty" }
      else
        { total_count := 1, success := true,
          media_items :=
            [.audio (fix_url a) (orElseStr response.audioFilename "audio.mp3")] }
    else if truthyStr response.url then
      let u := response.url.getD ""
      if response.status ≠ .tunnel ∧ oracle u = false then
        { total_count := 1, error_count := 1, success := false,
          error_message := some "Failed to download, file appears to be empty" }
      else
        let filename := orElseStr response.filename "file"
        let media : InputMedia :=
          match response.type with
          | .video => .video (fix_url u) none
          | .photo => .photo (fix_url u) none
          | .gif => .animation (fix_url u) none
          | .audio => .audio (fix_url u) filename
          | .file => .document (fix_url u)
        { total_count := 1, success := true, media_items := [media] }
    else
      -- falls through to the unhandled-response tail with total_count
      -- already set to 1
      { total_count := 1, success := false,
        error_message := some "Unable to process this media type" }
  else
    { success := false, error_message := some "Unable to process this media type" }

/-! ## `media_fetcher.py`: the content-probe cache -/

/-- Model of the `functools.lru_cache` wrapper around
`_sync_url_has_content`: `probe` is the result the underlying
`requests.head` existence check would produce right now.  Returns
`(result, probeIssued, newCache)`.  The lru_cache memoises *every* result,
positive or negative, so a cached URL never re-issues the check. -/
def sync_url_has_content (cache : List (String × Bool)) (url : String)
    (probe : Bool) : Bool × Bool × List (String × Bool) :=
  match dictGet cache url with
  | some v => (v, false, cache)
  | none => (probe, true, cache ++ [(url, probe)])

/-- `media_fetcher.check_url_has_content`: first consults the cached sync
helper; when that yields `False` it issues the async check (`asyncProbe`) and
on a positive outcome calls the cached helper once more, intending to "store
the positive result in the cache". -/
def check_url_has_content (cache : List (String × Bool)) (url : String)
    (syncProbe asyncProbe : Bool) : Bool × List (String × Bool) :=
  let r1 := sync_url_has_content cache url syncProbe
  if r1.1 then (true, r1.2.2)
  else if asyncProbe then
    let r2 := sync_url_has_content r1.2.2 url syncProbe
    (true, r2.2.2)
  else (false, r1.2.2)

/-! ## `media_fetcher.py`: `MediaFetcher.fetch` (mirror rounds) -/

/-- Outcome of `response.json()` on one mirror reply: the body either fails
to parse, or parses; a parsed body may or may not validate as a
`MediaResponse` (`asResponse`) and may or may not carry an `"error"` field
(`errorField`). -/
inductive JsonBody where
  | invalid
  | valid (asResponse : Option MediaResponse) (errorField : Option ErrInfo)

/-- What one `requests.post` to a mirror produces: a transport-level
exception, or an HTTP reply with a status code and a body. -/
inductive MirrorResult where
  | transportError
  | ok (statusCode : Nat) (body : JsonBody)

/-- The default taken by `response.json().get("error", ...)` when the body
parses but has no `"error"` key. -/
def defaultMirrorError : ErrInfo :=
  { code := "unknown", context := [("message", "Unknown error")] }

/-- How a non-200 reply updates the retained `error_text`. -/
def updateErrorText (et : Option ErrInfo) (body : JsonBody) : Option ErrInfo :=
  match body with
  | .invalid => et
  | .valid _ (some e) => some e
  | .valid _ none => some defaultMirrorError

/-- The inner `for api in self.apis` loop of `MediaFetcher.fetch`, for one
round: tries the mirrors whose indices are listed, returning the first
HTTP-200 reply whose body validates, threading `error_text` through the
failures, and recording which mirrors were consulted. -/
def tryMirrors (beh : Nat → Nat → MirrorResult) (round : Nat) :
    List Nat → Option ErrInfo →
    Option MediaResponse × Option ErrInfo × List (Nat × Nat)
  | [], et => (none, et, [])
  | i :: rest, et =>
    match beh round i with
    | .transportError =>
      let r := tryMirrors beh round rest et
      (r.1, r.2.1, (round, i) :: r.2.2)
    | .ok code body =>
      if code = 200 then
        match body with
        | .valid (some resp) _ => (some resp, et, [(round, i)])
        | _ =>
          let r := tryMirrors beh round rest et
          (r.1, r.2.1, (round, i) :: r.2.2)
      else
        let r := tryMirrors beh round rest (updateErrorText et body)
        (r.1, r.2.1, (round, i) :: r.2.2)

/-- `MediaFetcher.fetch` over `n` configured mirrors: two rounds
(`for x in range(2)`) over the mirror list; `beh round i` is what mirror `i`
returns in that round.  The result is paired with the trace of
`(round, mirror)` attempts actually made. -/
def MediaFetcher.fetch (n : Nat) (beh : Nat → Nat → MirrorResult) :
    MediaResponse × List (Nat × Nat) :=
  let r0 := tryMirrors beh 0 (List.range n) none
  match r0.1 with
  | some resp => (resp, r0.2.2)
  | none =>
    let r1 := tryMirrors beh 1 (List.range n) r0.2.1
    match r1.1 with
    | some resp => (resp, r0.2.2 ++ r1.2.2)
    | none => ({ status := .error, error := r1.2.1 }, r0.2.2 ++ r1.2.2)

/-- Extracts the response a mirror reply short-circuits with: `some r`
exactly when the reply is HTTP 200 with a body that validates. -/
def ok200 (m : MirrorResult) : Option MediaResponse :=
  match m with
  | .ok code (.valid (some r) _) => if code = 200 then some r else none
  | _ => none

/-! ## `bot.py`: the registry and scheduler state of `BotHandler` -/

/-- `BotHandler.MAX_QUERIES`. -/
def MAX_QUERIES : Nat := 100

/-- The mutable tracking state of `BotHandler`: `query_info` (dict),
`query_timestamps` (list of ids, oldest first) and the keys of
`timeout_tasks` (dict of armed timers). -/
structure BotState where
  query_info : List (String × InlineQueryInfo) := []
  query_timestamps : List String := []
  timeout_tasks : List String := []
  deriving DecidableEq

/-- `BotHandler.cancel_timeout_task` as a state transformer: remove the id
from `timeout_tasks` when armed (the `.cancel()` call itself is absorbed by
the surrounding try/except, see `cancel_timeout_task` below). -/
def cancelTT (st : BotState) (query_uuid : String) : BotState :=
  { st with timeout_tasks := st.timeout_tasks.erase query_uuid }

/-- Errors a modelled Python call can raise. -/
inductive PyErr where
  | unboundLocal
  | cancelFailed
  deriving DecidableEq

/-- `BotHandler.cancel_timeout_task` in full: `cancelRaises` stands for the
hypothetical failure of `task.cancel()`; the except clause catches it and the
finally clause pops the entry regardless, so the call itself never raises. -/
def cancel_timeout_task (tasks : List String) (query_uuid : String)
    (cancelRaises : Bool) : Except PyErr (List String) :=
  if query_uuid ∈ tasks then
    match (if cancelRaises then Except.error PyErr.cancelFailed
           else Except.ok ()) with
    | Except.ok _ => Except.ok (tasks.erase query_uuid)
    | Except.error _ => Except.ok (tasks.erase query_uuid)
  else Except.ok tasks

/-- `BotHandler.remove_query`: delete from the dict when present, and remove
the first occurrence from the timestamps list when present. -/
def remove_query (st : BotState) (query_uuid : String) : BotState :=
  { st with
    query_info := dictDel st.query_info query_uuid,
    query_timestamps := st.query_timestamps.erase query_uuid }

/-- The `while len(self.query_timestamps) > self.MAX_QUERIES` eviction loop
of `BotHandler.add_query`: pop the oldest id, and when it is still tracked,
cancel its timeout task and delete its dict entry. -/
def evictLoop : List String → List (String × InlineQueryInfo) → List String →
    List String × List (String × InlineQueryInfo) × List String
  | [], qi, tt => ([], qi, tt)
  | oldest :: rest, qi, tt =>
    if rest.length + 1 > MAX_QUERIES then
      if (dictGet qi oldest).isSome then
        evictLoop rest (dictDel qi oldest) (tt.erase oldest)
      else evictLoop rest qi tt
    else (oldest :: rest, qi, tt)

/-- `BotHandler.add_query`: insert the new query, append its id to the
timestamps, then evict oldest entries while over capacity. -/
def add_query (st : BotState) (query_uuid : String) (info : InlineQueryInfo) :
    BotState :=
  let qi := dictSet st.query_info query_uuid info
  let ts := st.query_timestamps ++ [query_uuid]
  let r := evictLoop ts qi st.timeout_tasks
  { query_info := r.2.1, query_timestamps := r.1, timeout_tasks := r.2.2 }

/-- The body of one iteration of `BotHandler.check_expired_messages_task`:
it only logs statistics and, when the two tracking structures disagree in
length, rebuilds `query_timestamps` from `query_info` (first dropping ids
not in the dict, then appending dict keys missing from the list).  No entry
is ever removed by age. -/
def check_expired_messages_body (st : BotState) : BotState :=
  if st.query_info.length = st.query_timestamps.length then st
  else
    let ts1 := st.query_timestamps.filter
      (fun u => (dictGet st.query_info u).isSome)
    let ts2 := (st.query_info.map Prod.fst).foldl
      (fun acc k => if k ∈ acc then acc else acc ++ [k]) ts1
    { st with query_timestamps := ts2 }

/-! ## `bot.py`: the dispatch entry point -/

/-- The environment of one dispatch invocation: outcomes of the external
calls `process_download_callback` makes.  `dmProbeOk` is the silent
DM-probe for inline requests; `dmSendOk` and `dmPermissionFlag` are the two
components `send_media_to_dm` returns (it returns `(False, True)` exactly on
a permission error); `fetchResponse` is what `MediaFetcher.fetch` resolves
for the stored link, and `contentOracle` drives the per-URL probes inside
`parse_media_response`. -/
structure DispatchEnv where
  dmProbeOk : Bool := true
  dmSendOk : Bool := true
  dmPermissionFlag : Bool := false
  fetchResponse : String → Bool → MediaResponse := fun _ _ => { status := .error }
  contentOracle : String → Bool := fun _ => true

/-- Classified results of `process_download_callback` (each corresponds to
one of the function's returns: the expired / not-your-message callback
answers, the permission-required edits, the error-message edit, the
DM-failure edit, and the successful delivery). -/
inductive DCOutcome where
  | expired
  | unauthorized
  | permissionRequired
  | errorShown
  | dmFailedShown
  | success
  deriving DecidableEq

/-- `BotHandler.process_download_callback`.  The first component is the
classified result, or the exception the call propagates; the second is the
tracking state when the call returns (or when the exception escapes).

The local variable `audio` is only assigned under `download_type == "auto"`
or `== "audio"`; any other type leaves it unbound and `self.fetch(url,
audio=audio)` raises `UnboundLocalError`.  That exception is caught by the
function's own `except Exception` handler, but the handler then reads
`query_info_cleaned` — a local that is first assigned only *after* the fetch
— so the handler itself raises `UnboundLocalError`, which escapes the
function; the model returns `Except.error .unboundLocal` for that path. -/
def process_download_callback (env : DispatchEnv) (st : BotState)
    (download_uuid : String) (caller_id : Nat) (download_type : String)
    (automatic_download : Bool) : Except PyErr DCOutcome × BotState :=
  match dictGet st.query_info download_uuid with
  | none => (Except.ok DCOutcome.expired, st)
  | some info =>
    if caller_id ≠ info.from_user_id then (Except.ok DCOutcome.unauthorized, st)
    else
      let st1 := if automatic_download then st else cancelTT st download_uuid
      if info.inline && !env.dmProbeOk then
        let st2 := remove_query (cancelTT st1 download_uuid) download_uuid
        (Except.ok DCOutcome.permissionRequired, st2)
      else
        let audio : Option Bool :=
          if download_type = "auto" then some false
          else if download_type = "audio" then some true
          else none
        match audio with
        | none => (Except.error PyErr.unboundLocal, st1)
        | some a =>
          let response := env.fetchResponse info.query a
          let result := parse_media_response env.contentOracle response
          let st2 := remove_query st1 download_uuid
          if result.success = false then (Except.ok DCOutcome.errorShown, st2)
          else if !env.dmSendOk then
            if env.dmPermissionFlag then
              (Except.ok DCOutcome.permissionRequired, st2)
            else (Except.ok DCOutcome.dmFailedShown, st2)
          else (Except.ok DCOutcome.success, st2)

/-- Helper for Python's `data.split(":")`: accumulate the current field in
reverse until a separator. -/
def splitColonAux : List Char → List Char → List String
  | [], acc => [String.mk acc.reverse]
  | c :: rest, acc =>
    if c = ':' then String.mk acc.reverse :: splitColonAux rest []
    else splitColonAux rest (c :: acc)

/-- `data.split(":")` on the callback data. -/
def splitColon (s : String) : List String := splitColonAux s.data []

/-- `BotHandler.process_callback`, the user-initiated callback entry point:
splits the callback data, cancels any armed timeout task for the id, runs
`process_download_callback`, and afterwards unconditionally removes the id
from the tracking dict ("Remove query info after processing to avoid
reuse").  Its outer `except Exception` swallows any propagated error, in
which case the removal lines are skipped. -/
def process_callback (env : DispatchEnv) (st : BotState) (data : String)
    (caller_id : Nat) : Option DCOutcome × BotState :=
  match splitColon data with
  | _ :: download_uuid :: download_type :: _ =>
    let st1 := cancelTT st download_uuid
    let r := process_download_callback env st1 download_uuid caller_id
      download_type false
    match r.1 with
    | Except.error _ => (none, r.2)
    | Except.ok o =>
      let st3 :=
        if (dictGet r.2.query_info download_uuid).isSome
        then remove_query r.2 download_uuid else r.2
      (some o, st3)
  | _ => (none, st)

/-! ## `bot.py`: URL extraction and `handle_incoming_message` -/

/-- Python's `\s` on ASCII text. -/
def isPySpace (c : Char) : Bool :=
  c = ' ' || c = '\t' || c = '\n' || c = '\r' || c = '\x0b' || c = '\x0c'

/-- A character admitted by the host part `[^/\s]+` of the URL pattern. -/
def isHostChar (c : Char) : Bool := !(c = '/') && !isPySpace c

/-- Matching the pattern `https?://[^/\s]+/\S+` at the start of `s`:
returns the matched characters and the remainder.  The character classes
exclude their followers, so greedy maximal munch is exact. -/
def matchUrl (s : List Char) : Option (List Char × List Char) :=
  match s with
  | 'h' :: 't' :: 't' :: 'p' :: rest =>
    let scheme : Option (List Char × List Char) :=
      match rest with
      | 's' :: ':' :: '/' :: '/' :: r =>
        some (['h', 't', 't', 'p', 's', ':', '/', '/'], r)
      | ':' :: '/' :: '/' :: r =>
        some (['h', 't', 't', 'p', ':', '/', '/'], r)
      | _ => none
    match scheme with
    | none => none
    | some (pre, r1) =>
      let host := r1.takeWhile isHostChar
      let r2 := r1.drop host.length
      if host.isEmpty then none
      else
        match r2 with
        | '/' :: r3 =>
          let path := r3.takeWhile (fun c => !isPySpace c)
          let r4 := r3.drop path.length
          if path.isEmpty then none
          else some (pre ++ host ++ '/' :: path, r4)
        | _ => none
  | _ => none

/-- The scan of `re.findall` for the URL pattern: leftmost non-overlapping
matches.  `fuel` bounds the recursion; every step consumes at least one
character, so `s.length` fuel is always enough. -/
def findAllAux : Nat → List Char → List String
  | 0, _ => []
  | fuel + 1, s =>
    match s with
    | [] => []
    | _ :: rest =>
      match matchUrl s with
      | some (m, r) => String.mk m :: findAllAux fuel r
      | none => findAllAux fuel rest

/-- `re.findall(r"https?://[^/\s]+/\S+", text)`. -/
def findall (text : String) : List String :=
  findAllAux text.data.length text.data

/-- `BotHandler.handle_incoming_message` for a text message: when the
message contains URLs, take the first, store a fresh query via `add_query`,
send the download keyboard and arm the timeout task for the fresh id.
Returns the state and whether a download offer was created. -/
def handle_incoming_message (st : BotState) (text : String)
    (fresh_uuid : String) (user_id : Nat) (now_ns : Nat) : BotState × Bool :=
  match findall text with
  | [] => (st, false)
  | url :: _ =>
    let info : InlineQueryInfo :=
      { query := url, inline := false, time_ns := now_ns,
        from_user_id := user_id }
    let st1 := add_query st fresh_uuid info
    let st2 :=
      { st1 with
        timeout_tasks :=
          if fresh_uuid ∈ st1.timeout_tasks then st1.timeout_tasks
          else st1.timeout_tasks ++ [fresh_uuid] }
    (st2, true)

/-! ## `bot.py`: the dispatch race, as an interleaving model

Two triggers race for the same id on the single-threaded asyncio loop: the
user-initiated callback `U` (`process_callback`) and the fired timeout task
`T` (`delayed_auto_download` / `handle_timeout`).  Each runs a sequence of
atomic segments separated by the genuine suspension points of the source
(`await callback.answer`, the DM probe / reply-markup edits / fetch / parse,
the delivery sends).  `U` cancels `T`'s task synchronously in the same
segment as its registry check (`process_callback` lines: cancel, then the
check at the top of `process_download_callback`, with no await between);
asyncio task cancellation injects `CancelledError` at `T`'s next suspension
point, and neither `except Exception` clause catches it, so a cancelled `T`
dies at its next scheduled segment without producing an outcome. -/

/-- The user-initiated invocation's program counter.  `u0`: before the
`callback.answer` suspension; `u1`: cancel the timeout task and check the
registry (one atomic segment); `u2`: mid-flight (markup edits, fetch,
parse); `u3`: conditional removal of the id; `u4`: delivery; then the
terminal observations. -/
inductive UPhase where
  | u0 | u1 | u2 | u3 | u4 | uExpired | uSuccess
  deriving DecidableEq, Fintype

/-- The timeout invocation's program counter.  `t0`: wake from the sleep and
check the registry (`delayed_auto_download`, `handle_timeout` and the top of
`process_download_callback` run without suspension for the inline flow);
`t1`: mid-flight; `t2`: conditional removal; `t3`: delivery; `tAbsent`:
observed the id gone and returned silently; `tAborted`: killed by
`CancelledError`; `tSuccess`: delivered. -/
inductive TPhase where
  | t0 | t1 | t2 | t3 | tAbsent | tAborted | tSuccess
  deriving DecidableEq, Fintype

/-- `uDone p` iff the user invocation has terminated. -/
def uDone : UPhase → Bool
  | .uExpired => true
  | .uSuccess => true
  | _ => false

/-- `tDone p` iff the timeout invocation has terminated. -/
def tDone : TPhase → Bool
  | .tAbsent => true
  | .tAborted => true
  | .tSuccess => true
  | _ => false

/-- Shared state of the race: whether the id is still in the registry,
whether `T`'s task has a pending cancellation, how many times the id was
removed (saturating at 2), and both program counters. -/
structure RaceState where
  reg : Bool
  tCancelled : Bool
  removals : Fin 3
  uPc : UPhase
  tPc : TPhase
  deriving DecidableEq, Fintype

/-- Saturating increment on the removal counter. -/
def incCap (r : Fin 3) : Fin 3 := ⟨min (r.val + 1) 2, by omega⟩

/-- One scheduled segment of the user invocation. -/
def stepU (s : RaceState) : RaceState :=
  match s.uPc with
  | .u0 => { s with uPc := .u1 }
  | .u1 =>
    let s1 := { s with tCancelled := true }
    if s1.reg then { s1 with uPc := .u2 } else { s1 with uPc := .uExpired }
  | .u2 => { s with uPc := .u3 }
  | .u3 =>
    if s.reg then
      { s with reg := false, removals := incCap s.removals, uPc := .u4 }
    else { s with uPc := .u4 }
  | .u4 => { s with uPc := .uSuccess }
  | _ => s

/-- One scheduled segment of the timeout invocation: if a cancellation is
pending, the task is killed on resumption instead of running its segment. -/
def stepT (s : RaceState) : RaceState :=
  if tDone s.tPc then s
  else if s.tCancelled then { s with tPc := .tAborted }
  else
    match s.tPc with
    | .t0 => if s.reg then { s with tPc := .t1 } else { s with tPc := .tAbsent }
    | .t1 => { s with tPc := .t2 }
    | .t2 =>
      if s.reg then
        { s with reg := false, removals := incCap s.removals, tPc := .t3 }
      else { s with tPc := .t3 }
    | .t3 => { s with tPc := .tSuccess }
    | _ => s

/-- Initial state: the id is registered, the timer armed, nothing removed. -/
def raceInit : RaceState :=
  { reg := true, tCancelled := false, removals := 0, uPc := .u0, tPc := .t0 }

/-- Scheduler step: `true` runs the user invocation, `false` the timeout. -/
def raceStep (s : RaceState) (b : Bool) : RaceState :=
  if b then stepU s else stepT s

/-- Run a schedule (list of scheduling choices) from the initial state. -/
def raceRun (sched : List Bool) : RaceState :=
  sched.foldl raceStep raceInit

/-- The inductive invariant of the dispatch race: the removal counter tracks
the registry flag, cancellation is flagged once the user invocation passed
its check-segment, removal precedes the timeout invocation's delivery
phases, a delivered timeout excludes a delivered user invocation, and any
terminated user invocation has seen exactly one removal. -/
def SInv (s : RaceState) : Prop :=
  (s.reg = true ↔ s.removals = 0) ∧
  s.removals.val ≤ 1 ∧
  ((s.uPc = .u2 ∨ s.uPc = .u3 ∨ s.uPc = .u4 ∨ s.uPc = .uSuccess) →
    s.tCancelled = true) ∧
  ((s.tPc = .t3 ∨ s.tPc = .tSuccess) → s.reg = false) ∧
  (s.tPc = .tSuccess → (s.uPc = .u0 ∨ s.uPc = .u1 ∨ s.uPc = .uExpired)) ∧
  ((s.uPc = .u4 ∨ s.uPc = .uExpired ∨ s.uPc = .uSuccess) → s.removals = 1)

/-! ## Concrete instances used by the claim theorems -/

/-- A dispatch environment in which every external call succeeds. -/
def envAllOk : DispatchEnv := {}

/-- A redirect response carrying only an audio locator (the shape the
`downloadMode = "audio"` request path produces). -/
def audioRedirectResponse : MediaResponse :=
  { status := .redirect, audio := some "http://host/sound.mp3" }

/-- A structured upstream error body. -/
def rateLimitError : ErrInfo := { code := "error.api.rate_exceeded" }

/-- A well-formed single-asset success response. -/
def tunnelResponse : MediaResponse :=
  { status := .tunnel, url := some "http://mirror/video.mp4" }

/-- Two mirrors: mirror 0 answers HTTP 400 with a well-formed error body
(status field `error`, an `error` dict), mirror 1 answers HTTP 200 with a
well-formed tunnel body. -/
def twoMirrors : Nat → Nat → MirrorResult := fun _ i =>
  if i = 0 then
    .ok 400 (.valid (some { status := .error, error := some rateLimitError })
      (some rateLimitError))
  else .ok 200 (.valid (some tunnelResponse) none)

/-- Three mirrors: mirror 0 raises a transport error, mirrors 1 and 2
answer HTTP 200 with a tunnel body. -/
def transportThenOk : Nat → Nat → MirrorResult := fun _ i =>
  if i = 0 then .transportError
  else .ok 200 (.valid (some tunnelResponse) none)

/-- A stored direct-message request whose requester is user 2. -/
def aliceInfo : InlineQueryInfo :=
  { query := "http://site/page", inline := false, time_ns := 0,
    from_user_id := 2 }

/-- A registry holding exactly the request `id1` of user 2, with an armed
timeout task. -/
def oneEntryState : BotState :=
  { query_info := [("id1", aliceInfo)], query_timestamps := ["id1"],
    timeout_tasks := ["id1"] }

/-- A registry holding exactly the request `id9` of user 2. -/
def oneEntryState9 : BotState :=
  { query_info := [("id9", aliceInfo)], query_timestamps := ["id9"],
    timeout_tasks := [] }

/-- A stored direct-message request of user 7. -/
def bobInfo : InlineQueryInfo :=
  { query := "http://site/v.mp4", inline := false, time_ns := 0,
    from_user_id := 7 }

/-- A registry holding exactly the request `id2` of user 7. -/
def c8state : BotState :=
  { query_info := [("id2", bobInfo)], query_timestamps := ["id2"],
    timeout_tasks := [] }

/-- A request inserted at monotonic time 0 that never saw any interaction. -/
def staleInfo : InlineQueryInfo :=
  { query := "http://old/q", inline := true, time_ns := 0, from_user_id := 3 }

/-- A consistent registry holding only the stale request, long past the
2-minute age ceiling of the specification. -/
def staleState : BotState :=
  { query_info := [("stale", staleInfo)], query_timestamps := ["stale"],
    timeout_tasks := [] }

/-- 100 distinct ids. -/
def fullIds : List String :=
  (List.range MAX_QUERIES).map (fun i => String.append "q" (Nat.repr i))

/-- A consistent registry at capacity: 100 tracked requests, each with an
armed timeout task. -/
def fullState : BotState :=
  { query_info := fullIds.map (fun s => (s, staleInfo)),
    query_timestamps := fullIds, timeout_tasks := fullIds }

/-- The empty registry. -/
def emptyState : BotState := {}

/-! ## Helper lemmas about the dict model -/

theorem dictGet_eq_none {α : Type} {m : List (String × α)} {k : String}
    (h : k ∉ m.map Prod.fst) : dictGet m k = none := by
  induction m with
  | nil => rfl
  | cons p rest ih =>
    simp only [List.map_cons, List.mem_cons, not_or] at h
    obtain ⟨p1, p2⟩ := p
    simp only [dictGet]
    rw [if_neg (fun hp => h.1 hp.symm), ih h.2]

theorem dictGet_isSome {α : Type} {m : List (String × α)} {k : String}
    (h : k ∈ m.map Prod.fst) : (dictGet m k).isSome := by
  induction m with
  | nil => simp at h
  | cons p rest ih =>
    obtain ⟨p1, p2⟩ := p
    simp only [List.map_cons, List.mem_cons] at h
    simp only [dictGet]
    by_cases hp : p1 = k
    · rw [if_pos hp]; rfl
    · rw [if_neg hp]
      exact ih (h.resolve_left (fun hk => hp hk.symm))

theorem dictGet_append {α : Type} (m n : List (String × α)) (k : String) :
    dictGet (m ++ n) k =
      match dictGet m k with
      | some v => some v
      | none => dictGet n k := by
  induction m with
  | nil => rfl
  | cons p rest ih =>
    obtain ⟨p1, p2⟩ := p
    rw [List.cons_append]
    simp only [dictGet]
    by_cases hp : p1 = k
    · rw [if_pos hp, if_pos hp]
    · rw [if_neg hp, if_neg hp, ih]

theorem dictSet_of_not_mem {α : Type} {m : List (String × α)} {k : String}
    (v : α) (h : k ∉ m.map Prod.fst) : dictSet m k v = m ++ [(k, v)] := by
  induction m with
  | nil => rfl
  | cons p rest ih =>
    simp only [List.map_cons, List.mem_cons, not_or] at h
    obtain ⟨p1, p2⟩ := p
    simp only [dictSet, List.cons_append]
    rw [if_neg (fun hp => h.1 hp.symm), ih h.2]

theorem dictDel_of_not_mem {α : Type} {m : List (String × α)} {k : String}
    (h : k ∉ m.map Prod.fst) : dictDel m k = m := by
  induction m with
  | nil => rfl
  | cons p rest ih =>
    simp only [List.map_cons, List.mem_cons, not_or] at h
    obtain ⟨p1, p2⟩ := p
    simp only [dictDel]
    rw [if_neg (fun hp => h.1 hp.symm), ih h.2]

theorem dictDel_append {α : Type} (m n : List (String × α)) (k : String) :
    dictDel (m ++ n) k = dictDel m k ++ dictDel n k := by
  induction m with
  | nil => rfl
  | cons p rest ih =>
    obtain ⟨p1, p2⟩ := p
    rw [List.cons_append]
    simp only [dictDel]
    by_cases hp : p1 = k
    · rw [if_pos hp, if_pos hp, ih]
    · rw [if_neg hp, if_neg hp, ih, List.cons_append]

theorem map_fst_dictDel {α : Type} (m : List (String × α)) (k : String) :
    (dictDel m k).map Prod.fst = (m.map Prod.fst).filter (fun x => x ≠ k) := by
  induction m with
  | nil => rfl
  | cons p rest ih =>
    obtain ⟨p1, p2⟩ := p
    simp only [dictDel, List.map_cons, List.filter_cons]
    by_cases hp : p1 = k
    · rw [if_pos hp, ih]
      simp [hp]
    · rw [if_neg hp]
      simp only [List.map_cons, ih]
      rw [if_pos (by simpa using hp)]

theorem not_mem_erase_self {l : List String} {a : String} (h : l.Nodup) :
    a ∉ l.erase a := by
  intro hmem
  rcases (List.Nodup.mem_erase_iff h).mp hmem with ⟨hne, _⟩
  exact hne rfl

/-! ## Helper lemmas about `add_query` eviction -/

theorem evictLoop_of_le (l : List String) (qi : List (String × InlineQueryInfo))
    (tt : List String) (h : l.length ≤ MAX_QUERIES) :
    evictLoop l qi tt = (l, qi, tt) := by
  cases l with
  | nil => rfl
  | cons oldest rest =>
    simp only [evictLoop]
    rw [if_neg]
    simp only [List.length_cons] at h
    omega

theorem add_query_under (st : BotState) (q : String) (info : InlineQueryInfo)
    (hq : q ∉ st.query_info.map Prod.fst)
    (hlen : st.query_timestamps.length < MAX_QUERIES) :
    add_query st q info =
      { query_info := st.query_info ++ [(q, info)],
        query_timestamps := st.query_timestamps ++ [q],
        timeout_tasks := st.timeout_tasks } := by
  simp only [add_query]
  rw [dictSet_of_not_mem info hq,
    evictLoop_of_le _ _ _
      (by simp only [List.length_append, List.length_cons, List.length_nil]; omega)]

theorem add_query_at_cap (st : BotState) (q h : String) (v : InlineQueryInfo)
    (info : InlineQueryInfo) (qi2 : List (String × InlineQueryInfo))
    (t : List String)
    (hqi : st.query_info = (h, v) :: qi2)
    (hts : st.query_timestamps = h :: t)
    (hmap2 : qi2.map Prod.fst = t)
    (hlen : t.length + 1 = MAX_QUERIES)
    (hqh : q ≠ h) (hqt : q ∉ t) (hht : h ∉ t) :
    add_query st q info =
      { query_info := qi2 ++ [(q, info)],
        query_timestamps := t ++ [q],
        timeout_tasks := st.timeout_tasks.erase h } := by
  have hqmem : q ∉ st.query_info.map Prod.fst := by
    rw [hqi]
    simp only [List.map_cons, List.mem_cons, not_or]
    exact ⟨hqh, by rw [hmap2]; exact hqt⟩
  simp only [add_query]
  rw [dictSet_of_not_mem info hqmem, hqi, hts]
  rw [List.cons_append, List.cons_append]
  simp only [evictLoop]
  rw [if_pos (by simp only [List.length_append, List.length_cons, List.length_nil]; omega)]
  rw [dictGet]
  rw [if_pos rfl]
  simp only [Option.isSome_some, if_pos]
  rw [dictDel]
  rw [if_pos rfl]
  rw [dictDel_append, dictDel_of_not_mem (by rw [hmap2]; exact hht),
    dictDel_of_not_mem (by simpa using fun he => hqh he.symm)]
  rw [evictLoop_of_le _ _ _
    (by simp only [List.length_append, List.length_cons, List.length_nil]; omega)]

theorem dictGet_dictDel {α : Type} (m : List (String × α)) (k : String) :
    dictGet (dictDel m k) k = none := by
  induction m with
  | nil => rfl
  | cons p rest ih =>
    obtain ⟨p1, p2⟩ := p
    simp only [dictDel]
    by_cases hp : p1 = k
    · rw [if_pos hp]; exact ih
    · rw [if_neg hp]
      simp only [dictGet]
      rw [if_neg hp]
      exact ih

/-! ## Helper lemmas about the dispatch race -/

instance (s : RaceState) : Decidable (SInv s) := by
  unfold SInv; infer_instance

theorem sinv_init : SInv raceInit := by decide

set_option maxRecDepth 4000 in
theorem sinv_step : ∀ (s : RaceState) (b : Bool), SInv s → SInv (raceStep s b) := by
  decide

theorem sinv_run (sched : List Bool) : SInv (raceRun sched) := by
  suffices h : ∀ (l : List Bool) (s : RaceState), SInv s → SInv (l.foldl raceStep s) by
    exact h sched raceInit sinv_init
  intro l
  induction l with
  | nil => intro s hs; exact hs
  | cons b l ih =>
    intro s hs
    exact ih _ (sinv_step s b hs)

/-! ## Helper lemmas about the mirror rounds -/

theorem ok200_eq_some {m : MirrorResult} {b : MediaResponse}
    (h : ok200 m = some b) :
    ∃ ef, m = .ok 200 (.valid (some b) ef) := by
  cases m with
  | transportError => simp [ok200] at h
  | ok code body =>
    cases body with
    | invalid => simp [ok200] at h
    | valid ar ef =>
      cases ar with
      | none => simp [ok200] at h
      | some r =>
        simp only [ok200] at h
        by_cases hc : code = 200
        · rw [if_pos hc] at h
          exact ⟨ef, by rw [hc, Option.some_inj.mp h]⟩
        · rw [if_neg hc] at h
          simp at h

theorem tryMirrors_short (beh : Nat → Nat → MirrorResult) (round : Nat)
    (b : MediaResponse) :
    ∀ (l1 : List Nat) (k : Nat) (l2 : List Nat) (et : Option ErrInfo),
    (∀ j ∈ l1, ok200 (beh round j) = none) →
    ok200 (beh round k) = some b →
    (tryMirrors beh round (l1 ++ k :: l2) et).1 = some b ∧
    (tryMirrors beh round (l1 ++ k :: l2) et).2.2 =
      (l1 ++ [k]).map (fun i => (round, i)) := by
  intro l1
  induction l1 with
  | nil =>
    intro k l2 et _ hk
    obtain ⟨ef, hm⟩ := ok200_eq_some hk
    rw [List.nil_append, List.nil_append]
    simp [tryMirrors, hm]
  | cons j l1x ih =>
    intro k l2 et hpre hk
    have hj : ok200 (beh round j) = none := hpre j (by simp)
    have hrest : ∀ i ∈ l1x, ok200 (beh round i) = none :=
      fun i hi => hpre i (by simp [hi])
    rw [List.cons_append]
    cases hbeh : beh round j with
    | transportError =>
      obtain ⟨ih1, ih2⟩ := ih k l2 et hrest hk
      simp [tryMirrors, hbeh, ih1, ih2]
    | ok code body =>
      by_cases hc : code = 200
      · cases body with
        | invalid =>
          obtain ⟨ih1, ih2⟩ := ih k l2 et hrest hk
          simp [tryMirrors, hbeh, hc, ih1, ih2]
        | valid ar ef =>
          cases ar with
          | none =>
            obtain ⟨ih1, ih2⟩ := ih k l2 et hrest hk
            simp [tryMirrors, hbeh, hc, ih1, ih2]
          | some r =>
            rw [hbeh, hc] at hj
            simp [ok200] at hj
      · cases body with
        | invalid =>
          obtain ⟨ih1, ih2⟩ := ih k l2 (updateErrorText et .invalid) hrest hk
          simp [tryMirrors, hbeh, hc, ih1, ih2]
        | valid ar ef =>
          obtain ⟨ih1, ih2⟩ := ih k l2 (updateErrorText et (.valid ar ef)) hrest hk
          simp [tryMirrors, hbeh, hc, ih1, ih2]

/-! ## Claim theorems -/

/-- Claim C1, counterexample.  The claim states that of two concurrent
dispatch invocations for one id (user callback racing the fired timeout)
exactly one produces a non-Expired outcome.  Under the schedule in which the
timeout invocation passes its checks and removes the id, and the user click
then cancels the timeout task before the timeout invocation has delivered,
both invocations terminate, the id was removed exactly once, yet *neither*
invocation produces a non-Expired outcome: the user invocation observes the
id absent (Expired) and the timeout invocation is killed by the injected
`CancelledError` before reaching its delivery step. -/
theorem c1_race_counterexample :
    uDone (raceRun [false, false, false, true, true, false]).uPc = true ∧
    tDone (raceRun [false, false, false, true, true, false]).tPc = true ∧
    (raceRun [false, false, false, true, true, false]).uPc = UPhase.uExpired ∧
    (raceRun [false, false, false, true, true, false]).tPc = TPhase.tAborted ∧
    (raceRun [false, false, false, true, true, false]).removals = 1 := by
  decide

set_option maxRecDepth 4000 in
/-- Claim C1, amended.  Over every interleaving of the two dispatch
invocations: the id is removed from the registry at most once — exactly once
as soon as the user invocation has terminated — and at most one of the two
invocations delivers (produces a non-Expired outcome); but not exactly one:
the user click's unconditional cancellation can abort the timeout
invocation mid-flight, including after it already removed the id, leaving
zero non-Expired outcomes, and the losing invocation may have observed the
id present rather than absent. -/
theorem c1_race_amended (sched : List Bool) :
    (raceRun sched).removals.val ≤ 1 ∧
    ¬((raceRun sched).uPc = UPhase.uSuccess ∧
      (raceRun sched).tPc = TPhase.tSuccess) ∧
    (uDone (raceRun sched).uPc = true → (raceRun sched).removals = 1) := by
  have h := sinv_run sched
  revert h
  generalize raceRun sched = s
  revert s
  decide

/-- Claim C1, witness for the amended theorem: a schedule in which the user
invocation runs to completion and the timeout invocation, when finally
scheduled, is aborted by the pending cancellation; the amended theorem
applies and the removal count is exactly one. -/
theorem c1_race_amended_witness :
    uDone (raceRun [true, true, true, true, true, false]).uPc = true ∧
    (raceRun [true, true, true, true, true, false]).removals = 1 :=
  ⟨by decide,
   (c1_race_amended [true, true, true, true, true, false]).2.2 (by decide)⟩

/-- Claim C3, code bug.  For a redirect response carrying an audio locator
whose content probe *succeeds*, `parse_media_response` returns
`success = True` with `media_items = []`, `total_count = 1` and
`error_count = 0`: the accounting invariant `succeeded = attempted - failed`
fails (0 ≠ 1 - 0) and the success flag holds with `success_count = 0`.  The
cause is the early `return` in the audio branch sitting outside the
probe-failure conditional (compare the parallel `response.url` branch, where
the same lines are inside it). -/
theorem c3_accounting_bug :
    (parse_media_response (fun _ => true) audioRedirectResponse).success = true ∧
    (parse_media_response (fun _ => true) audioRedirectResponse).success_count = 0 ∧
    (parse_media_response (fun _ => true) audioRedirectResponse).total_count = 1 ∧
    (parse_media_response (fun _ => true) audioRedirectResponse).error_count = 0 ∧
    (parse_media_response (fun _ => true) audioRedirectResponse).success_count ≠
      (parse_media_response (fun _ => true) audioRedirectResponse).total_count -
        (parse_media_response (fun _ => true) audioRedirectResponse).error_count := by
  decide

/-- Claim C5, counterexample.  The periodic task never removes a request by
age: on the consistent registry holding the request inserted at monotonic
time 0 (arbitrarily far past the claimed 2-minute ceiling — the task body
reads no clock at all), running the task body leaves the registry unchanged
and the stale request still retrievable. -/
theorem c5_sweep_counterexample :
    check_expired_messages_body staleState = staleState ∧
    dictGet (check_expired_messages_body staleState).query_info "stale" =
      some staleInfo := by
  decide

/-- Claim C5, amended.  `check_expired_messages_task` performs no age-based
removal: whenever the two tracking structures agree in length (the normal,
consistent case) its body is the identity on the registry, so an
uninteracted request survives every run of the task and can only leave the
registry through dispatch or capacity eviction. -/
theorem c5_sweep_amended (st : BotState)
    (h : st.query_info.length = st.query_timestamps.length) :
    check_expired_messages_body st = st := by
  simp [check_expired_messages_body, h]

/-- Claim C5, witness: the consistent one-entry registry satisfies the
length hypothesis, and the sweep body leaves it untouched. -/
theorem c5_sweep_amended_witness :
    staleState.query_info.length = staleState.query_timestamps.length ∧
    check_expired_messages_body staleState = staleState :=
  ⟨by decide, c5_sweep_amended staleState (by decide)⟩

/-- Claim C7, code bug.  The `lru_cache` on `_sync_url_has_content`
memoises *negative* results as well: after a probe of a URL returns `false`,
the `false` is stored in the cache, a later call returns the cached negative
without re-issuing the existence check (second component `false` = no probe
issued), and the "store positive result in cache" call made by
`check_url_has_content` after a successful async probe cannot overwrite the
cached negative — the cache still maps the URL to `false`. -/
theorem c7_negative_cache_bug :
    dictGet (sync_url_has_content [] "http://host/file.bin" false).2.2
      "http://host/file.bin" = some false ∧
    (sync_url_has_content (sync_url_has_content [] "http://host/file.bin" false).2.2
      "http://host/file.bin" true).1 = false ∧
    (sync_url_has_content (sync_url_has_content [] "http://host/file.bin" false).2.2
      "http://host/file.bin" true).2.1 = false ∧
    dictGet (check_url_has_content [] "http://host/file.bin" false true).2
      "http://host/file.bin" = some false := by
  decide

/-- Claim C8, code bug.  For a stored request dispatched by its own
requester with a `download_type` that is neither `"auto"` nor `"audio"`,
`process_download_callback` does not return a classified result: the local
`audio` is unbound at the fetch call, and the `except` handler then reads
the still-unbound `query_info_cleaned`, so an `UnboundLocalError` escapes
the function. -/
theorem c8_unbound_local_bug :
    (process_download_callback envAllOk c8state "id2" 7 "wav" false).1 =
      Except.error PyErr.unboundLocal := by
  rfl

/-- Claim C9, confirmed.  `cancel_timeout_task` is total and idempotent: a
call never raises (it always returns `ok`, the try/except/finally absorbing
any failure of `.cancel()` — `cancelRaises` arbitrary), the resulting table
is the erasure of the id, cancelling again leaves the table unchanged, and
cancelling an id that was never armed (or whose entry is gone) is a no-op.
A fired task's entry is still just a table entry, so the same equations
cover cancelling an already-fired trigger. -/
theorem c9_cancel_idempotent (tasks : List String) (q : String)
    (r1 r2 : Bool) (hnd : tasks.Nodup) :
    cancel_timeout_task tasks q r1 = Except.ok (tasks.erase q) ∧
    cancel_timeout_task (tasks.erase q) q r2 = Except.ok (tasks.erase q) ∧
    (q ∉ tasks → tasks.erase q = tasks) := by
  refine ⟨?_, ?_, fun hq => List.erase_of_not_mem hq⟩
  · by_cases hq : q ∈ tasks
    · cases r1 <;> simp [cancel_timeout_task, hq]
    · rw [List.erase_of_not_mem hq]
      simp [cancel_timeout_task, hq]
  · have hq2 : q ∉ tasks.erase q := by
      by_cases hq : q ∈ tasks
      · exact not_mem_erase_self hnd
      · rw [List.erase_of_not_mem hq]; exact hq
    simp [cancel_timeout_task, hq2]

/-- Claim C9, witness: cancelling `"a"` out of the armed table
`["a", "b"]` twice, with the first `.cancel()` hypothetically raising. -/
theorem c9_cancel_idempotent_witness :
    (["a", "b"] : List String).Nodup ∧
    (cancel_timeout_task ["a", "b"] "a" true = Except.ok (["a", "b"].erase "a") ∧
     cancel_timeout_task (["a", "b"].erase "a") "a" false =
       Except.ok (["a", "b"].erase "a") ∧
     ("a" ∉ (["a", "b"] : List String) → ["a", "b"].erase "a" = ["a", "b"])) :=
  ⟨by decide, c9_cancel_idempotent ["a", "b"] "a" true false (by decide)⟩

/-- Claim C2, counterexample.  Mirror 0 returns a well-formed response
carrying an explicit error status (HTTP 400, body parses, `status = error`
with an `error` dict); the claim requires `fetch` to return that error
response immediately without attempting mirror 1.  Instead `fetch` falls
through to mirror 1 — the trace shows mirror `(0,1)` was consulted — and
returns mirror 1's tunnel response, not an error response. -/
theorem c2_mirror_counterexample :
    (MediaFetcher.fetch 2 twoMirrors).1 = tunnelResponse ∧
    (MediaFetcher.fetch 2 twoMirrors).1.status ≠ MStatus.error ∧
    (MediaFetcher.fetch 2 twoMirrors).2 = [(0, 0), (0, 1)] := by
  decide

/-- Claim C2, amended.  Only an HTTP-200 reply whose body validates
short-circuits `MediaFetcher.fetch` — including a 200 body whose status
field is `error`.  If the first `k` mirrors of round 0 do not produce such a
reply (transport errors, malformed bodies, or any non-200 status — even a
well-formed error body) and mirror `k` does, `fetch` returns mirror `k`'s
response after consulting exactly mirrors `0..k` of round 0, with no second
round.  Non-200 well-formed error bodies are only captured as `error_text`
and surface after both rounds exhaust all mirrors. -/
theorem c2_mirror_amended (n : Nat) (beh : Nat → Nat → MirrorResult)
    (k : Nat) (b : MediaResponse) (hk : k < n)
    (hpre : ∀ j ∈ List.range k, ok200 (beh 0 j) = none)
    (hok : ok200 (beh 0 k) = some b) :
    MediaFetcher.fetch n beh =
      (b, (List.range (k + 1)).map (fun i => (0, i))) := by
  have hsplit : List.range n =
      List.range k ++ k :: ((List.range (n - (k + 1))).map (fun i => k + 1 + i)) := by
    have h1 : n = (k + 1) + (n - (k + 1)) := by omega
    conv_lhs => rw [h1]
    rw [List.range_add, List.range_succ]
    simp [List.append_assoc]
  obtain ⟨h1, h2⟩ := tryMirrors_short beh 0 b (List.range k) k
    ((List.range (n - (k + 1))).map (fun i => k + 1 + i)) none hpre hok
  have h1n : (tryMirrors beh 0 (List.range n) none).1 = some b := by
    rw [hsplit]; exact h1
  have h2n : (tryMirrors beh 0 (List.range n) none).2.2 =
      (List.range k ++ [k]).map (fun i => ((0 : Nat), i)) := by
    rw [hsplit]; exact h2
  simp only [MediaFetcher.fetch]
  rw [h1n, h2n, ← List.range_succ]

/-- Claim C2, witness for the amended theorem: three mirrors, mirror 0
raising a transport error and mirror 1 answering HTTP 200 with a tunnel
body; `fetch` returns the tunnel response having consulted exactly mirrors 0
and 1 of round 0. -/
theorem c2_mirror_amended_witness :
    (1 < 3 ∧ (∀ j ∈ List.range 1, ok200 (transportThenOk 0 j) = none) ∧
      ok200 (transportThenOk 0 1) = some tunnelResponse) ∧
    MediaFetcher.fetch 3 transportThenOk =
      (tunnelResponse, (List.range 2).map (fun i => (0, i))) :=
  ⟨⟨by decide, by decide, by decide⟩,
   c2_mirror_amended 3 transportThenOk 1 tunnelResponse (by decide)
     (by decide) (by decide)⟩

/-- Claim C4, counterexample.  User 1 clicks the download button of user 2's
stored request `id1` (callback data `download:id1:auto`).  The dispatch
answers "not your message" (Unauthorized) — but the claim's requirement that
the request stay in the registry, retrievable by the legitimate requester,
fails: the enclosing callback handler has already cancelled the armed
timeout task and removes `id1` from the registry right after the call. -/
theorem c4_unauthorized_counterexample :
    (process_callback envAllOk oneEntryState "download:id1:auto" 1).1 =
      some DCOutcome.unauthorized ∧
    dictGet (process_callback envAllOk oneEntryState "download:id1:auto" 1).2.query_info
      "id1" = none ∧
    (process_callback envAllOk oneEntryState "download:id1:auto" 1).2.timeout_tasks
      = [] := by
  decide

/-- Claim C4, amended.  For any stored request whose requester differs from
the caller: `process_download_callback` itself returns Unauthorized and
leaves the whole tracking state unchanged, but the user-facing entry point
`process_callback` — through which such a foreign click arrives — cancels
the id's timeout task before dispatching and removes the id from the
registry afterwards, so the request is *not* retrievable by the legitimate
requester after the unauthorized attempt. -/
theorem c4_unauthorized_amended (env : DispatchEnv) (st : BotState)
    (data u dt p0 : String) (rest : List String) (caller : Nat)
    (info : InlineQueryInfo)
    (hlook : dictGet st.query_info u = some info)
    (hauth : caller ≠ info.from_user_id)
    (hsplit : splitColon data = p0 :: u :: dt :: rest) :
    process_download_callback env st u caller dt false =
      (Except.ok DCOutcome.unauthorized, st) ∧
    (process_callback env st data caller).1 = some DCOutcome.unauthorized ∧
    dictGet (process_callback env st data caller).2.query_info u = none := by
  have hpdc : ∀ st0 : BotState, dictGet st0.query_info u = some info →
      process_download_callback env st0 u caller dt false =
        (Except.ok DCOutcome.unauthorized, st0) := by
    intro st0 h0
    simp [process_download_callback, h0, hauth]
  refine ⟨hpdc st hlook, ?_, ?_⟩
  all_goals
    simp only [process_callback, hsplit]
    rw [hpdc (cancelTT st u) (by simpa [cancelTT] using hlook)]
    try simp [cancelTT, remove_query, hlook, dictGet_dictDel]

/-- Claim C4, witness for the amended theorem: the stored request `id9` of
user 2, dispatched by user 1 via callback data `download:id9:auto`. -/
theorem c4_unauthorized_amended_witness :
    (dictGet oneEntryState9.query_info "id9" = some aliceInfo ∧
      (1 : Nat) ≠ aliceInfo.from_user_id ∧
      splitColon "download:id9:auto" = ["download", "id9", "auto"]) ∧
    (process_download_callback envAllOk oneEntryState9 "id9" 1 "auto" false =
      (Except.ok DCOutcome.unauthorized, oneEntryState9) ∧
    (process_callback envAllOk oneEntryState9 "download:id9:auto" 1).1 =
      some DCOutcome.unauthorized ∧
    dictGet (process_callback envAllOk oneEntryState9 "download:id9:auto" 1).2.query_info
      "id9" = none) :=
  ⟨⟨by decide, by decide, by decide⟩,
   c4_unauthorized_amended envAllOk oneEntryState9 "download:id9:auto" "id9"
     "auto" "download" [] 1 aliceInfo (by decide) (by decide) (by decide)⟩

/-- Claim C6, confirmed.  On any consistent tracking state (dict keys and
timestamp list agree, ids distinct) within capacity, `add_query` of a fresh
id leaves at most `MAX_QUERIES` (100) entries: below capacity nothing is
evicted; at capacity exactly the earliest-inserted id still present (the
head of the timestamp list) is evicted — it is gone from the dict and its
armed timeout task is cancelled and removed — while the new entry is stored
and consistency is preserved. -/
theorem c6_capacity (st : BotState) (q : String) (info : InlineQueryInfo)
    (hmap : st.query_info.map Prod.fst = st.query_timestamps)
    (hnd : st.query_timestamps.Nodup)
    (hndtt : st.timeout_tasks.Nodup)
    (hlen : st.query_timestamps.length ≤ MAX_QUERIES)
    (hfresh : q ∉ st.query_timestamps) :
    (add_query st q info).query_timestamps.length =
      min (st.query_timestamps.length + 1) MAX_QUERIES ∧
    (add_query st q info).query_info.map Prod.fst =
      (add_query st q info).query_timestamps ∧
    dictGet (add_query st q info).query_info q = some info ∧
    (st.query_timestamps.length < MAX_QUERIES →
      add_query st q info =
        { query_info := st.query_info ++ [(q, info)],
          query_timestamps := st.query_timestamps ++ [q],
          timeout_tasks := st.timeout_tasks }) ∧
    (∀ h1 t1, st.query_timestamps = h1 :: t1 →
      st.query_timestamps.length = MAX_QUERIES →
      (add_query st q info).query_timestamps = t1 ++ [q] ∧
      dictGet (add_query st q info).query_info h1 = none ∧
      h1 ∉ (add_query st q info).timeout_tasks) := by
  have hqfst : q ∉ st.query_info.map Prod.fst := by rw [hmap]; exact hfresh
  by_cases hcase : st.query_timestamps.length < MAX_QUERIES
  · have heq := add_query_under st q info hqfst hcase
    rw [heq]
    refine ⟨?_, ?_, ?_, fun _ => rfl, ?_⟩
    · simp only [List.length_append, List.length_cons, List.length_nil]
      omega
    · simp [hmap]
    · rw [dictGet_append, dictGet_eq_none hqfst]
      simp [dictGet]
    · intro h1 t1 _ hlength
      exfalso
      omega
  · have hlen100 : st.query_timestamps.length = MAX_QUERIES := by omega
    obtain ⟨h0, t0, hts⟩ : ∃ h0 t0, st.query_timestamps = h0 :: t0 := by
      cases hts0 : st.query_timestamps with
      | nil => rw [hts0] at hlen100; simp [MAX_QUERIES] at hlen100
      | cons a b => exact ⟨a, b, rfl⟩
    obtain ⟨v, qi2, hqi, hmap2⟩ :
        ∃ v qi2, st.query_info = (h0, v) :: qi2 ∧ qi2.map Prod.fst = t0 := by
      cases hqi0 : st.query_info with
      | nil => rw [hqi0, hts] at hmap; simp at hmap
      | cons p qi2 =>
        obtain ⟨p1, p2⟩ := p
        rw [hqi0, hts] at hmap
        simp only [List.map_cons, List.cons.injEq] at hmap
        exact ⟨p2, qi2, by rw [hmap.1], hmap.2⟩
    have hfr : q ≠ h0 ∧ q ∉ t0 := by
      rw [hts] at hfresh
      simpa [List.mem_cons, not_or] using hfresh
    have hnodup : h0 ∉ t0 ∧ t0.Nodup := by
      rw [hts] at hnd
      exact List.nodup_cons.mp hnd
    have hlent : t0.length + 1 = MAX_QUERIES := by
      rw [hts] at hlen100
      simpa using hlen100
    have heq := add_query_at_cap st q h0 v info qi2 t0 hqi hts hmap2 hlent
      hfr.1 hfr.2 hnodup.1
    rw [heq]
    refine ⟨?_, ?_, ?_, ?_, ?_⟩
    · simp only [List.length_append, List.length_cons, List.length_nil, hts]
      omega
    · simp [hmap2]
    · rw [dictGet_append, dictGet_eq_none (by rw [hmap2]; exact hfr.2)]
      simp [dictGet]
    · intro hlt
      exfalso
      omega
    · intro h1 t1 hts1 _
      rw [hts] at hts1
      injection hts1 with e1 e2
      subst e1
      subst e2
      refine ⟨rfl, ?_, ?_⟩
      · rw [dictGet_append, dictGet_eq_none (by rw [hmap2]; exact hnodup.1)]
        simp only [dictGet]
        rw [if_neg hfr.1]
      · exact not_mem_erase_self hndtt

/-- Claim C6, witness: the consistent 100-entry registry `fullState` with
every timer armed; inserting the fresh id `"fresh"` keeps the length at
`min 101 100 = 100`, preserves consistency, stores the new entry, and (by
the at-capacity clause, with head `"q0"`) evicts exactly `"q0"`, whose
timer entry is also gone. -/
theorem c6_capacity_witness :
    (fullState.query_info.map Prod.fst = fullState.query_timestamps ∧
      fullState.query_timestamps.Nodup ∧
      fullState.timeout_tasks.Nodup ∧
      fullState.query_timestamps.length ≤ MAX_QUERIES ∧
      "fresh" ∉ fullState.query_timestamps) ∧
    (add_query fullState "fresh" staleInfo).query_timestamps.length =
      min (fullState.query_timestamps.length + 1) MAX_QUERIES :=
  ⟨⟨by decide, by decide, by decide, by decide, by decide⟩,
   (c6_capacity fullState "fresh" staleInfo (by decide) (by decide)
     (by decide) (by decide) (by decide)).1⟩

/-- Claim C10, confirmed.  On a consistent tracking state, an incoming
direct message whose text matches at least one URL makes
`handle_incoming_message` create exactly one request: the fresh id is
stored with the *first* matched URL as its query, every id present
afterwards is either the fresh one or was present before (the remaining
URLs of the message create no entries), the timestamp list grows by exactly
one modulo capacity, and the download offer is reported sent. -/
theorem c10_first_url (st : BotState) (text fresh : String) (user now : Nat)
    (url : String) (rest : List String)
    (hurls : findall text = url :: rest)
    (hmap : st.query_info.map Prod.fst = st.query_timestamps)
    (hnd : st.query_timestamps.Nodup)
    (hlen : st.query_timestamps.length ≤ MAX_QUERIES)
    (hfresh : fresh ∉ st.query_timestamps) :
    dictGet (handle_incoming_message st text fresh user now).1.query_info fresh =
      some { query := url, inline := false, time_ns := now,
             from_user_id := user } ∧
    (∀ k, k ∈ (handle_incoming_message st text fresh user now).1.query_info.map
        Prod.fst →
      k = fresh ∨ k ∈ st.query_info.map Prod.fst) ∧
    (handle_incoming_message st text fresh user now).1.query_timestamps.length =
      min (st.query_timestamps.length + 1) MAX_QUERIES ∧
    (handle_incoming_message st text fresh user now).2 = true := by
  have hqfst : fresh ∉ st.query_info.map Prod.fst := by rw [hmap]; exact hfresh
  simp only [handle_incoming_message, hurls]
  by_cases hcase : st.query_timestamps.length < MAX_QUERIES
  · rw [add_query_under st fresh _ hqfst hcase]
    refine ⟨?_, ?_, ?_, trivial⟩
    · rw [dictGet_append, dictGet_eq_none hqfst]
      simp [dictGet]
    · intro k hk
      simp only [List.map_append, List.map_cons, List.map_nil,
        List.mem_append, List.mem_cons, List.not_mem_nil, or_false] at hk
      rcases hk with hk | hk
      · exact Or.inr hk
      · exact Or.inl hk
    · simp only [List.length_append, List.length_cons, List.length_nil]
      omega
  · have hlen100 : st.query_timestamps.length = MAX_QUERIES := by omega
    obtain ⟨h0, t0, hts⟩ : ∃ h0 t0, st.query_timestamps = h0 :: t0 := by
      cases hts0 : st.query_timestamps with
      | nil => rw [hts0] at hlen100; simp [MAX_QUERIES] at hlen100
      | cons a b => exact ⟨a, b, rfl⟩
    obtain ⟨v, qi2, hqi, hmap2⟩ :
        ∃ v qi2, st.query_info = (h0, v) :: qi2 ∧ qi2.map Prod.fst = t0 := by
      cases hqi0 : st.query_info with
      | nil => rw [hqi0, hts] at hmap; simp at hmap
      | cons p qi2 =>
        obtain ⟨p1, p2⟩ := p
        rw [hqi0, hts] at hmap
        simp only [List.map_cons, List.cons.injEq] at hmap
        exact ⟨p2, qi2, by rw [hmap.1], hmap.2⟩
    have hfr : fresh ≠ h0 ∧ fresh ∉ t0 := by
      rw [hts] at hfresh
      simpa [List.mem_cons, not_or] using hfresh
    have hnodup : h0 ∉ t0 ∧ t0.Nodup := by
      rw [hts] at hnd
      exact List.nodup_cons.mp hnd
    have hlent : t0.length + 1 = MAX_QUERIES := by
      rw [hts] at hlen100
      simpa using hlen100
    rw [add_query_at_cap st fresh h0 v _ qi2 t0 hqi hts hmap2 hlent
      hfr.1 hfr.2 hnodup.1]
    refine ⟨?_, ?_, ?_, trivial⟩
    · rw [dictGet_append, dictGet_eq_none (by rw [hmap2]; exact hfr.2)]
      simp [dictGet]
    · intro k hk
      simp only [List.map_append, List.map_cons, List.map_nil,
        List.mem_append, List.mem_cons, List.not_mem_nil, or_false,
        hmap2] at hk
      rcases hk with hk | hk
      · right
        rw [hqi]
        simp only [List.map_cons, List.mem_cons]
        right
        rw [hmap2]
        exact hk
      · left
        exact hk
    · simp only [List.length_append, List.length_cons, List.length_nil, hts]
      omega

/-- Claim C10, witness: the empty registry, a message holding two URLs.
The fresh id `"f1"` is stored with the first URL `http://a.b/c`; the second
URL creates nothing. -/
theorem c10_first_url_witness :
    (findall "see http://a.b/c and https://d.e/f ok" =
      ["http://a.b/c", "https://d.e/f"] ∧
      emptyState.query_info.map Prod.fst = emptyState.query_timestamps ∧
      emptyState.query_timestamps.Nodup ∧
      emptyState.query_timestamps.length ≤ MAX_QUERIES ∧
      "f1" ∉ emptyState.query_timestamps) ∧
    dictGet (handle_incoming_message emptyState
        "see http://a.b/c and https://d.e/f ok" "f1" 5 0).1.query_info "f1" =
      some { query := "http://a.b/c", inline := false, time_ns := 0,
             from_user_id := 5 } :=
  ⟨⟨by decide, by decide, by decide, by decide, by decide⟩,
   (c10_first_url emptyState "see http://a.b/c and https://d.e/f ok" "f1" 5 0
     "http://a.b/c" ["https://d.e/f"] (by decide) (by decide) (by decide)
     (by decide) (by decide)).1⟩

end Cblt
